import Mathlib

/-!
Shallow embedding of the simulation core of `src/src/Game.tsx` (the
"Millie Nova Defense" arcade game) and proofs of the specification
claims about it.

Coordinates are modelled as real numbers (the source uses JS numbers);
score, shields and ammo counts are integers; counters are naturals.
Definitions mirror the source functions `update`, `spawnRocket`,
`fireInterceptor`, `handleCanvasClick`, `nextRound`, `nextLevel` and
keep the source's names and field names wherever Lean allows it.
-/

open scoped Classical

/-- Coarse session state, source type `GameState`. -/
inductive GState where
  | START
  | PLAYING
  | PAUSED
  | WON
  | LOST
  | ROUND_END
deriving DecidableEq

/-- Two-phase interceptor state, source type `'FLYING' | 'EXPLODING'`. -/
inductive IState where
  | FLYING
  | EXPLODING
deriving DecidableEq

/-- World-space point, source interface `Point`. -/
structure Point where
  x : ℝ
  y : ℝ

/-- Falling projectile, source interface `Rocket`. -/
structure Rocket where
  id : ℕ
  start : Point
  pos : Point
  target : Point
  speed : ℝ
  destroyed : Bool

/-- Player missile, source interface `Interceptor`. -/
structure Interceptor where
  id : ℕ
  start : Point
  pos : Point
  target : Point
  speed : ℝ
  state : IState
  explosionRadius : ℝ
  maxExplosionRadius : ℝ
  explosionTimer : ℕ

/-- Defended structure, source interface `City`. -/
structure City where
  id : ℕ
  x : ℝ
  active : Bool
  shields : ℤ

/-- Launch battery, source interface `Battery`. -/
structure Battery where
  id : ℕ
  x : ℝ
  missiles : ℤ
  maxMissiles : ℤ
  active : Bool

def WORLD_WIDTH : ℝ := 1000

def WORLD_HEIGHT : ℝ := 800

def EXPLOSION_SPEED : ℝ := 2.0

def INTERCEPTOR_SPEED : ℝ := 12

def ROCKET_BASE_SPEED : ℝ := 0.5

def WIN_SCORE_PER_LEVEL : ℤ := 200

def MAX_LEVELS : ℕ := 10

/-- Whole mutable game state: the React state variables `score`, `level`,
`round`, `gameState` and the ref-cell collections `rocketsRef`,
`interceptorsRef`, `citiesRef`, `batteriesRef`. -/
structure SimState where
  score : ℤ
  level : ℕ
  round : ℕ
  gameState : GState
  rockets : List Rocket
  interceptors : List Interceptor
  cities : List City
  batteries : List Battery

/-- Initial city row of the source (`citiesRef` initializer). -/
def initialCities : List City :=
  [⟨1, 200, true, 3⟩, ⟨2, 300, true, 3⟩, ⟨3, 400, true, 3⟩,
   ⟨4, 600, true, 3⟩, ⟨5, 700, true, 3⟩, ⟨6, 800, true, 3⟩]

/-- Initial battery row of the source (`batteriesRef` initializer). -/
def initialBatteries : List Battery :=
  [⟨0, 100, 20, 20, true⟩, ⟨1, 500, 40, 40, true⟩, ⟨2, 900, 20, 20, true⟩]

/-- Battery refill used by `nextRound`, `nextLevel`, `replayPreviousLevel`,
`resetGame` and `exitToMenu`: `{ ...b, active: true, missiles: b.maxMissiles }`. -/
def refillBattery (b : Battery) : Battery :=
  { b with active := true, missiles := b.maxMissiles }

/-- Source `nextRound`: increment the round, clear both entity pools,
refill and reactivate every battery, resume playing.  Cities are not
touched. -/
def nextRound (s : SimState) : SimState :=
  { s with round := s.round + 1,
           rockets := [],
           interceptors := [],
           batteries := s.batteries.map refillBattery,
           gameState := GState.PLAYING }

/-- Source `nextLevel`: if the level has reached `MAX_LEVELS` the session
becomes WON and nothing else changes; otherwise increment the level,
reset the round to 1, clear both pools, refill every battery and resume
playing. -/
def nextLevel (s : SimState) : SimState :=
  if MAX_LEVELS ≤ s.level then
    { s with gameState := GState.WON }
  else
    { s with level := s.level + 1,
             round := 1,
             rockets := [],
             interceptors := [],
             batteries := s.batteries.map refillBattery,
             gameState := GState.PLAYING }

/-- Euclidean distance between two points, the source's
`Math.sqrt(Math.pow(ax-bx,2) + Math.pow(ay-by,2))` pattern. -/
noncomputable def ptDist (p q : Point) : ℝ :=
  Real.sqrt ((p.x - q.x) * (p.x - q.x) + (p.y - q.y) * (p.y - q.y))

/-- Source straight-line distance from a rocket's origin to its target
(`dist` in the rocket update of `update`). -/
noncomputable def rocketDist (r : Rocket) : ℝ :=
  Real.sqrt ((r.target.x - r.start.x) * (r.target.x - r.start.x) +
             (r.target.y - r.start.y) * (r.target.y - r.start.y))

/-- Rocket movement of the source `update` loop: the position advances by
`speed` along the unit vector from origin to target.  (For the source's
IEEE behaviour when origin = target see `moveposNaN` below.) -/
noncomputable def moveRocket (r : Rocket) : Rocket :=
  let dx := r.target.x - r.start.x
  let dy := r.target.y - r.start.y
  let dist := Real.sqrt (dx * dx + dy * dy)
  { r with pos := ⟨r.pos.x + dx / dist * r.speed, r.pos.y + dy / dist * r.speed⟩ }

/-- Shield damage of the source impact resolution:
`const city = citiesRef.current.find(c => c.x === rocket.target.x);
if (city && city.active) { city.shields -= 1; if (city.shields <= 0) city.active = false; }`.
Only the first city whose x-position equals the target x is considered. -/
noncomputable def damageCities (tx : ℝ) : List City → List City
  | [] => []
  | c :: cs =>
    if c.x = tx then
      (if c.active then
        (if c.shields - 1 ≤ 0 then { c with shields := c.shields - 1, active := false }
         else { c with shields := c.shields - 1 })
       else c) :: cs
    else c :: damageCities tx cs

/-- Battery damage of the source impact resolution:
`const battery = batteriesRef.current.find(b => b.x === rocket.target.x);
if (battery) battery.active = false;`. -/
noncomputable def damageBatteries (tx : ℝ) : List Battery → List Battery
  | [] => []
  | b :: bs =>
    if b.x = tx then { b with active := false } :: bs
    else b :: damageBatteries tx bs

/-- Per-rocket transformation of one frame: move, then mark destroyed when
the position reaches or passes the target's y-coordinate. -/
noncomputable def rocketStep1 (r : Rocket) : Rocket :=
  let m := moveRocket r
  if r.target.y ≤ m.pos.y then { m with destroyed := true } else m

/-- Sequential rocket pass of the source `update` (a `forEach` that mutates
cities and batteries while iterating): every rocket is moved, and a rocket
reaching its target's y-coordinate is marked destroyed and applies damage
before the next rocket is processed. -/
noncomputable def updateRockets :
    List Rocket → List City → List Battery → List Rocket × List City × List Battery
  | [], cs, bs => ([], cs, bs)
  | r :: rs, cs, bs =>
    let m := moveRocket r
    if r.target.y ≤ m.pos.y then
      let step := updateRockets rs (damageCities r.target.x cs) (damageBatteries r.target.x bs)
      ({ m with destroyed := true } :: step.1, step.2)
    else
      let step := updateRockets rs cs bs
      (m :: step.1, step.2)

/-- Interceptor movement of the source `update` loop (FLYING branch),
identical formula to the rocket movement. -/
noncomputable def moveInterceptor (i : Interceptor) : Interceptor :=
  let dx := i.target.x - i.start.x
  let dy := i.target.y - i.start.y
  let dist := Real.sqrt (dx * dx + dy * dy)
  { i with pos := ⟨i.pos.x + dx / dist * i.speed, i.pos.y + dy / dist * i.speed⟩ }

/-- Blast collision pass of the source EXPLODING branch: every
not-yet-destroyed rocket strictly within the current explosion radius of
the blast centre is destroyed and credited 20 points. -/
noncomputable def explodeRockets (c : Point) (radius : ℝ) :
    List Rocket → List Rocket × ℤ
  | [] => ([], 0)
  | r :: rs =>
    let step := explodeRockets c radius rs
    if r.destroyed = false ∧ ptDist r.pos c < radius then
      ({ r with destroyed := true } :: step.1, 20 + step.2)
    else
      (r :: step.1, step.2)

/-- Sequential interceptor pass of the source `update`.  A FLYING
interceptor moves and transitions to EXPLODING when its new position is
strictly within one speed-step of the target (the explosion radius is not
changed by the transition).  An EXPLODING interceptor grows its radius by
`EXPLOSION_SPEED` while the timer is below 30 and shrinks it by the same
amount afterwards, increments the timer, and then destroys rockets inside
the new radius.  Returns the new interceptors, the new rockets, and the
score credited. -/
noncomputable def updateInterceptors :
    List Interceptor → List Rocket → List Interceptor × List Rocket × ℤ
  | [], rks => ([], rks, 0)
  | i :: is, rks =>
    match i.state with
    | IState.FLYING =>
      let m := moveInterceptor i
      let m2 := if ptDist m.pos m.target < m.speed then { m with state := IState.EXPLODING } else m
      let step := updateInterceptors is rks
      (m2 :: step.1, step.2)
    | IState.EXPLODING =>
      let rad := if i.explosionTimer < 30 then i.explosionRadius + EXPLOSION_SPEED
                 else i.explosionRadius - EXPLOSION_SPEED
      let i2 := { i with explosionRadius := rad, explosionTimer := i.explosionTimer + 1 }
      let blast := explodeRockets i.pos rad rks
      let step := updateInterceptors is blast.1
      (i2 :: step.1, step.2.1, blast.2 + step.2.2)

/-- Source cleanup `rocketsRef.current.filter(r => !r.destroyed)`. -/
def cleanupRockets (rs : List Rocket) : List Rocket :=
  rs.filter (fun r => !r.destroyed)

/-- Source cleanup
`interceptorsRef.current.filter(i => i.explosionRadius > 0 || i.state === 'FLYING')`. -/
noncomputable def cleanupInterceptors : List Interceptor → List Interceptor
  | [] => []
  | i :: is =>
    if 0 < i.explosionRadius ∨ i.state = IState.FLYING then i :: cleanupInterceptors is
    else cleanupInterceptors is

/-- Spawn interval of the source `update` effect:
`Math.max(300, 2000 - (level * 150) - (round * 100))`. -/
def spawnInterval (level round : ℕ) : ℤ :=
  max 300 (2000 - 150 * (level : ℤ) - 100 * (round : ℤ))

/-- Candidate ground targets of the source `spawnRocket`: every active city
and every active battery, at y-coordinate `WORLD_HEIGHT - 20`. -/
def spawnTargets (cs : List City) (bs : List Battery) : List Point :=
  (cs.filter (fun c => c.active)).map (fun c => ⟨c.x, WORLD_HEIGHT - 20⟩) ++
  (bs.filter (fun b => b.active)).map (fun b => ⟨b.x, WORLD_HEIGHT - 20⟩)

/-- Source `spawnRocket`.  The random target index and the random start x
are passed in explicitly (`choice` stands for `Math.floor(Math.random() *
targets.length)`, realised as `choice % targets.length`).  Returns `none`
when there is no eligible target, in which case the source returns without
pushing a rocket. -/
noncomputable def spawnRocket (s : SimState) (choice : ℕ) (startX : ℝ) : Option Rocket :=
  let targets := spawnTargets s.cities s.batteries
  if targets = [] then none
  else some
    { id := 0,
      start := ⟨startX, 0⟩,
      pos := ⟨startX, 0⟩,
      target := targets.getD (choice % targets.length) ⟨0, 0⟩,
      speed := ROCKET_BASE_SPEED + (s.level : ℝ) * 0.3 + (s.round : ℝ) * 0.1,
      destroyed := false }

/-- Spawn phase of the source `update`: when the elapsed time since the last
spawn exceeds the spawn interval, `spawnRocket` is called (pushing at most
one rocket). -/
noncomputable def spawnPhase (s : SimState) (time lastSpawnTime : ℝ) (choice : ℕ)
    (startX : ℝ) : List Rocket :=
  if (spawnInterval s.level s.round : ℝ) < time - lastSpawnTime then
    match spawnRocket s choice startX with
    | some r => s.rockets ++ [r]
    | none => s.rockets
  else s.rockets

/-- Total remaining ammo, the source
`batteriesRef.current.reduce((acc, b) => acc + b.missiles, 0)`. -/
def sumMissiles (bs : List Battery) : ℤ :=
  bs.foldl (fun acc b => acc + b.missiles) 0

/-- Shield sum of the bonus computation, the source
`activeCities.reduce((acc, c) => acc + c.shields * 20, 0)` without the
factor 20 (the factor is applied at the use site). -/
def sumShields (cs : List City) : ℤ :=
  cs.foldl (fun acc c => acc + c.shields) 0

/-- Completion bonus of the ammo-exhaustion branch:
`activeCities.length * 50 + activeCities.reduce((acc, c) => acc + c.shields * 20, 0)`. -/
def completionBonus (cs : List City) : ℤ :=
  50 * ((cs.filter (fun c => c.active)).length : ℤ) +
  20 * sumShields (cs.filter (fun c => c.active))

/-- Entity phase of one frame of the source `update`: spawn decision,
rocket kinematics and impacts, interceptor kinematics and blasts, then
cleanup of destroyed rockets and finished explosions.  The score credits
of this frame are accumulated onto the score. -/
noncomputable def stepEntities (s : SimState) (time lastSpawnTime : ℝ) (choice : ℕ)
    (startX : ℝ) : SimState :=
  let rockets0 := spawnPhase s time lastSpawnTime choice startX
  let rog := updateRockets rockets0 s.cities s.batteries
  let ing := updateInterceptors s.interceptors rog.1
  { s with rockets := cleanupRockets ing.2.1,
           interceptors := cleanupInterceptors ing.1,
           cities := rog.2.1,
           batteries := rog.2.2,
           score := s.score + ing.2.2 }

/-- Termination checks at the end of the source `update`.  The loss check
and the level-goal check form an if/else pair; the ammo-exhaustion check
is a separate statement evaluated afterwards, and when it fires it adds
the completion bonus and sets ROUND_END, overriding the earlier
assignment.  `staleScore` is the `score` captured by the effect closure
(the committed score at the start of the frame), which is what the
level-goal comparison reads. -/
noncomputable def checkTermination (staleScore : ℤ) (s : SimState) : SimState :=
  let gs1 := if s.batteries.all (fun b => !b.active) then GState.LOST
             else if (s.level : ℤ) * WIN_SCORE_PER_LEVEL ≤ staleScore then GState.ROUND_END
             else s.gameState
  if sumMissiles s.batteries = 0 ∧ s.rockets = [] ∧ s.interceptors = [] then
    { s with score := s.score + completionBonus s.cities, gameState := GState.ROUND_END }
  else
    { s with gameState := gs1 }

/-- One full frame of the source `update` callback (simulation only; the
draw pass does not mutate state). -/
noncomputable def update (s : SimState) (time lastSpawnTime : ℝ) (choice : ℕ)
    (startX : ℝ) : SimState :=
  checkTermination s.score (stepEntities s time lastSpawnTime choice startX)

/-- Battery selection fold of the source `fireInterceptor`: a `forEach`
over the batteries keeping the active battery with ammo whose x-position
is strictly closer to the aim x than the best so far (`minDist` starts at
Infinity, modelled by the `none` accumulator).  The index of the winning
battery inside the list is tracked so that the in-place mutation of the
source can be modelled by `List.set`. -/
noncomputable def selectBatteryAux (x : ℝ) :
    List Battery → ℕ → Option (ℕ × Battery × ℝ) → Option (ℕ × Battery × ℝ)
  | [], _, acc => acc
  | b :: bs, i, acc =>
    match acc with
    | none =>
      if b.active = true ∧ 0 < b.missiles then
        selectBatteryAux x bs (i + 1) (some (i, b, |b.x - x|))
      else selectBatteryAux x bs (i + 1) none
    | some (j, b0, d) =>
      if b.active = true ∧ 0 < b.missiles ∧ |b.x - x| < d then
        selectBatteryAux x bs (i + 1) (some (i, b, |b.x - x|))
      else selectBatteryAux x bs (i + 1) (some (j, b0, d))

/-- Battery selected by a fire request aimed at x, with its index and its
distance to the aim point. -/
noncomputable def selectBattery (bs : List Battery) (x : ℝ) : Option (ℕ × Battery × ℝ) :=
  selectBatteryAux x bs 0 none

/-- Interceptor created by the source `createInterceptor(offsetX)` inside
`fireInterceptor`: origin on the firing battery (y = `WORLD_HEIGHT - 40`),
target on the tap point, both shifted laterally by the offset. -/
noncomputable def mkInterceptor (bx x y off : ℝ) : Interceptor :=
  { id := 0,
    start := ⟨bx + off, WORLD_HEIGHT - 40⟩,
    pos := ⟨bx + off, WORLD_HEIGHT - 40⟩,
    target := ⟨x + off, y⟩,
    speed := INTERCEPTOR_SPEED,
    state := IState.FLYING,
    explosionRadius := 0,
    maxExplosionRadius := 60,
    explosionTimer := 0 }

/-- Source `fireInterceptor(targetX, targetY)`: when playing, select the
closest active battery with ammo; if one exists, decrement its ammo by
one and push either a single interceptor, or, for the centre battery
(id 1), three interceptors with lateral offsets −30, 0, +30. -/
noncomputable def fireInterceptor (s : SimState) (x y : ℝ) : SimState :=
  if s.gameState = GState.PLAYING then
    match selectBattery s.batteries x with
    | none => s
    | some (i, b, _) =>
      { s with
          batteries := s.batteries.set i { b with missiles := b.missiles - 1 },
          interceptors := s.interceptors ++
            (if b.id = 1 then
              [mkInterceptor b.x x y (-30), mkInterceptor b.x x y 0, mkInterceptor b.x x y 30]
             else [mkInterceptor b.x x y 0]) }
  else s

/-- Immediate explosion pushed by a direct hit in `handleCanvasClick`:
an EXPLODING interceptor at the destroyed rocket's position with initial
explosion radius 10 and zero flight phase. -/
noncomputable def clickInterceptor (p : Point) : Interceptor :=
  { id := 0,
    start := p,
    pos := p,
    target := p,
    speed := INTERCEPTOR_SPEED,
    state := IState.EXPLODING,
    explosionRadius := 10,
    maxExplosionRadius := 60,
    explosionTimer := 0 }

/-- Direct-hit pass of the source `handleCanvasClick`: every rocket whose
position is strictly within 30 world units of the tap point is marked
destroyed, credited 20 points and spawns a `clickInterceptor` at the
rocket's position; the flag records whether any hit occurred.  (The
source performs no `destroyed` check here.) -/
noncomputable def directHits (x y : ℝ) :
    List Rocket → List Rocket × List Interceptor × ℤ × Bool
  | [] => ([], [], 0, false)
  | r :: rs =>
    let step := directHits x y rs
    if ptDist r.pos ⟨x, y⟩ < 30 then
      ({ r with destroyed := true } :: step.1,
       clickInterceptor r.pos :: step.2.1, 20 + step.2.2.1, true)
    else
      (r :: step.1, step.2.1, step.2.2.1, step.2.2.2)

/-- Source `handleCanvasClick` after the screen-to-world conversion: when
playing, run direct-hit detection; fire from a battery only when no
direct hit occurred. -/
noncomputable def handleCanvasClick (s : SimState) (x y : ℝ) : SimState :=
  if s.gameState = GState.PLAYING then
    let hits := directHits x y s.rockets
    let s2 := { s with rockets := hits.1,
                       interceptors := s.interceptors ++ hits.2.1,
                       score := s.score + hits.2.2.1 }
    if hits.2.2.2 then s2 else fireInterceptor s2 x y
  else s

/-- Movement formula of the source with IEEE division made explicit: when
the origin equals the target the source computes `dx / dist` with
`dist = 0`, which under IEEE-754 yields NaN, and `pos += NaN` makes the
position NaN; a NaN position is modelled as `none`.  On every input with
`dist ≠ 0` this agrees with `moveRocket`/`moveInterceptor`. -/
noncomputable def moveposNaN (start target pos : Point) (speed : ℝ) : Option Point :=
  let dx := target.x - start.x
  let dy := target.y - start.y
  let dist := Real.sqrt (dx * dx + dy * dy)
  if dist = 0 then none
  else some ⟨pos.x + dx / dist * speed, pos.y + dy / dist * speed⟩

/-- Example of a vertically falling rocket used by concrete witnesses:
origin (100, 0), target (100, 780), speed 4. -/
def vertRocket : Rocket :=
  { id := 0, start := ⟨100, 0⟩, pos := ⟨100, 0⟩, target := ⟨100, 780⟩,
    speed := 4, destroyed := false }

/-- Concrete state for the C1 counterexample: every battery inactive AND
out of ammo, both entity pools empty. -/
def C1state : SimState :=
  { score := 0, level := 1, round := 1, gameState := GState.PLAYING,
    rockets := [], interceptors := [], cities := initialCities,
    batteries := [⟨0, 100, 0, 20, false⟩, ⟨1, 500, 0, 40, false⟩, ⟨2, 900, 0, 20, false⟩] }

/-- Concrete state for the C1 witness: every battery inactive but ammo
remaining. -/
def C1lossState : SimState :=
  { score := 0, level := 1, round := 1, gameState := GState.PLAYING,
    rockets := [], interceptors := [], cities := initialCities,
    batteries := [⟨0, 100, 20, 20, false⟩, ⟨1, 500, 40, 40, false⟩, ⟨2, 900, 20, 20, false⟩] }

/-- Concrete state for the C9 failing input: one FLYING interceptor one
speed-step away from its target, explosion radius still 0. -/
def C9state : SimState :=
  { score := 0, level := 1, round := 1, gameState := GState.PLAYING,
    rockets := [],
    interceptors := [⟨0, ⟨500, 760⟩, ⟨500, 70⟩, ⟨500, 60⟩, 12, IState.FLYING, 0, 60, 0⟩],
    cities := initialCities, batteries := initialBatteries }

/-- Concrete state for the C5 counterexample: a single live rocket at
(20, 100), 20 world units away from the tap point (0, 100). -/
def C5state : SimState :=
  { score := 0, level := 1, round := 1, gameState := GState.PLAYING,
    rockets := [⟨0, ⟨20, 0⟩, ⟨20, 100⟩, ⟨20, 780⟩, 1, false⟩],
    interceptors := [], cities := initialCities, batteries := initialBatteries }

/-- Concrete state for the C6 witness: a single centre battery (id 1). -/
def C6state : SimState :=
  { score := 0, level := 1, round := 1, gameState := GState.PLAYING,
    rockets := [], interceptors := [], cities := initialCities,
    batteries := [⟨1, 500, 40, 40, true⟩] }

/-- Claim C8: the round transition leaves every structure's active flag and
shield count unchanged, restores every battery's ammo to its maximum and
its active flag to true, clears the projectile and interceptor
collections, and increments the round counter. -/
theorem C8_round_transition (s : SimState) :
    (nextRound s).cities = s.cities ∧
    (nextRound s).round = s.round + 1 ∧
    (nextRound s).rockets = [] ∧
    (nextRound s).interceptors = [] ∧
    (nextRound s).batteries = s.batteries.map refillBattery ∧
    (∀ b ∈ (nextRound s).batteries, b.active = true ∧ b.missiles = b.maxMissiles) ∧
    (nextRound s).score = s.score ∧
    (nextRound s).level = s.level := by
  refine ⟨rfl, rfl, rfl, rfl, rfl, ?_, rfl, rfl⟩
  intro b hb
  simp only [nextRound, List.mem_map] at hb
  obtain ⟨b₀, -, rfl⟩ := hb
  exact ⟨rfl, rfl⟩

/-- Claim C10: `nextLevel` transitions directly to the terminal WON state,
leaving level, score and the entity pools unchanged, exactly when the
current level is at least `MAX_LEVELS = 10`; when the level is below 10
it increments the level, resets the round to 1, clears both pools,
refills and reactivates all batteries, and returns to PLAYING. -/
theorem C10_next_level (s : SimState) :
    (10 ≤ s.level →
      (nextLevel s).gameState = GState.WON ∧
      (nextLevel s).level = s.level ∧
      (nextLevel s).score = s.score ∧
      (nextLevel s).rockets = s.rockets ∧
      (nextLevel s).interceptors = s.interceptors ∧
      (nextLevel s).round = s.round ∧
      (nextLevel s).batteries = s.batteries) ∧
    (s.level < 10 →
      (nextLevel s).gameState = GState.PLAYING ∧
      (nextLevel s).level = s.level + 1 ∧
      (nextLevel s).round = 1 ∧
      (nextLevel s).rockets = [] ∧
      (nextLevel s).interceptors = [] ∧
      (nextLevel s).batteries = s.batteries.map refillBattery ∧
      (∀ b ∈ (nextLevel s).batteries, b.active = true ∧ b.missiles = b.maxMissiles) ∧
      (nextLevel s).score = s.score) := by
  constructor
  · intro h
    have hc : MAX_LEVELS ≤ s.level := h
    have hns : nextLevel s = { s with gameState := GState.WON } := by
      simp [nextLevel, hc]
    rw [hns]
    exact ⟨rfl, rfl, rfl, rfl, rfl, rfl, rfl⟩
  · intro h
    have hc : ¬ MAX_LEVELS ≤ s.level := by
      simpa [MAX_LEVELS] using h
    have hns : nextLevel s =
        { s with level := s.level + 1, round := 1, rockets := [], interceptors := [],
                 batteries := s.batteries.map refillBattery, gameState := GState.PLAYING } := by
      simp [nextLevel, hc]
    rw [hns]
    refine ⟨rfl, rfl, rfl, rfl, rfl, rfl, ?_, rfl⟩
    intro b hb
    simp only [List.mem_map] at hb
    obtain ⟨b₀, -, rfl⟩ := hb
    exact ⟨rfl, rfl⟩

/-- Witness for C10 at concrete states: at level 10 the session becomes WON
with everything else unchanged, and at level 3 the level advances to 4. -/
theorem C10_next_level_witness :
    (nextLevel ⟨0, 10, 1, GState.ROUND_END, [], [], initialCities, initialBatteries⟩).gameState
      = GState.WON ∧
    (nextLevel ⟨0, 3, 2, GState.ROUND_END, [], [], initialCities, initialBatteries⟩).level = 4 := by
  constructor
  · exact ((C10_next_level ⟨0, 10, 1, GState.ROUND_END, [], [], initialCities, initialBatteries⟩).1
      (by norm_num)).1
  · exact ((C10_next_level ⟨0, 3, 2, GState.ROUND_END, [], [], initialCities, initialBatteries⟩).2
      (by norm_num)).2.1

/-- Projection facts about one movement step. -/
theorem moveRocket_start (r : Rocket) : (moveRocket r).start = r.start := rfl

/-- Target is unchanged by movement. -/
theorem moveRocket_target (r : Rocket) : (moveRocket r).target = r.target := rfl

/-- Speed is unchanged by movement. -/
theorem moveRocket_speed (r : Rocket) : (moveRocket r).speed = r.speed := rfl

/-- Destroyed flag is unchanged by movement. -/
theorem moveRocket_destroyed (r : Rocket) : (moveRocket r).destroyed = r.destroyed := rfl

/-- Vertical component of one movement step. -/
theorem moveRocket_pos_y (r : Rocket) :
    (moveRocket r).pos.y = r.pos.y + (r.target.y - r.start.y) / rocketDist r * r.speed := rfl

/-- Iterating movement keeps origin, target and speed and advances the
vertical position linearly. -/
theorem moveRocket_iterate (r : Rocket) (k : ℕ) :
    (moveRocket^[k] r).start = r.start ∧
    (moveRocket^[k] r).target = r.target ∧
    (moveRocket^[k] r).speed = r.speed ∧
    (moveRocket^[k] r).pos.y =
      r.pos.y + k * ((r.target.y - r.start.y) / rocketDist r * r.speed) := by
  induction k with
  | zero => simp
  | succ n ih =>
    obtain ⟨h1, h2, h3, h4⟩ := ih
    rw [Function.iterate_succ_apply']
    have hdist : rocketDist (moveRocket^[n] r) = rocketDist r := by
      unfold rocketDist
      rw [h1, h2]
    refine ⟨by rw [moveRocket_start, h1], by rw [moveRocket_target, h2],
      by rw [moveRocket_speed, h3], ?_⟩
    rw [moveRocket_pos_y, h1, h2, h3, hdist, h4]
    push_cast
    ring

/-- A rocket aimed strictly downward reaches its target's y-coordinate
after at most `⌈dist / speed⌉` movement steps. -/
theorem moveRocket_converges (r : Rocket) (hpos : r.pos = r.start) (hsp : 0 < r.speed)
    (hy : r.start.y < r.target.y) :
    r.target.y ≤ (moveRocket^[⌈rocketDist r / r.speed⌉₊] r).pos.y := by
  have hdy0 : 0 < r.target.y - r.start.y := by linarith
  have hdge : r.target.y - r.start.y ≤ rocketDist r := by
    have h1 : (r.target.y - r.start.y) * (r.target.y - r.start.y) ≤
        (r.target.x - r.start.x) * (r.target.x - r.start.x) +
        (r.target.y - r.start.y) * (r.target.y - r.start.y) := by
      nlinarith [mul_self_nonneg (r.target.x - r.start.x)]
    calc r.target.y - r.start.y ≤ |r.target.y - r.start.y| := le_abs_self _
    _ = Real.sqrt ((r.target.y - r.start.y) * (r.target.y - r.start.y)) := by
        rw [Real.sqrt_mul_self_eq_abs]
    _ ≤ rocketDist r := Real.sqrt_le_sqrt h1
  have hd0 : 0 < rocketDist r := lt_of_lt_of_le hdy0 hdge
  obtain ⟨-, -, -, h4⟩ := moveRocket_iterate r ⌈rocketDist r / r.speed⌉₊
  rw [h4, hpos]
  have hk : rocketDist r / r.speed ≤ ((⌈rocketDist r / r.speed⌉₊ : ℕ) : ℝ) := Nat.le_ceil _
  have h5 : rocketDist r ≤ ((⌈rocketDist r / r.speed⌉₊ : ℕ) : ℝ) * r.speed := by
    rw [div_le_iff₀ hsp] at hk
    exact hk
  have h6 : r.target.y - r.start.y ≤
      ((⌈rocketDist r / r.speed⌉₊ : ℕ) : ℝ) *
        ((r.target.y - r.start.y) / rocketDist r * r.speed) := by
    have hdd : ((⌈rocketDist r / r.speed⌉₊ : ℕ) : ℝ) *
        ((r.target.y - r.start.y) / rocketDist r * r.speed) =
        (((⌈rocketDist r / r.speed⌉₊ : ℕ) : ℝ) * r.speed) * (r.target.y - r.start.y) /
          rocketDist r := by
      ring
    rw [hdd, le_div_iff₀ hd0]
    nlinarith [mul_le_mul_of_nonneg_right h5 hdy0.le]
  linarith

/-- Rocket pass of `updateRockets` acts elementwise on the rockets. -/
theorem updateRockets_fst (rs : List Rocket) (cs : List City) (bs : List Battery) :
    (updateRockets rs cs bs).1 = rs.map rocketStep1 := by
  induction rs generalizing cs bs with
  | nil => rfl
  | cons r rs ih =>
    by_cases h : r.target.y ≤ (moveRocket r).pos.y
    · simp [updateRockets, rocketStep1, h, ih]
    · simp [updateRockets, rocketStep1, h, ih]

/-- Elementwise form of one blast pass. -/
noncomputable def explode1 (c : Point) (radius : ℝ) (r : Rocket) : Rocket :=
  if r.destroyed = false ∧ ptDist r.pos c < radius then { r with destroyed := true } else r

/-- Blast pass of `explodeRockets` acts elementwise on the rockets. -/
theorem explodeRockets_fst (c : Point) (radius : ℝ) (rs : List Rocket) :
    (explodeRockets c radius rs).1 = rs.map (explode1 c radius) := by
  induction rs with
  | nil => rfl
  | cons r rs ih =>
    by_cases h : r.destroyed = false ∧ ptDist r.pos c < radius
    · simp [explodeRockets, explode1, h, ih]
    · simp [explodeRockets, explode1, h, ih]

/-- A blast never reverts the destroyed flag. -/
theorem explode1_mono (c : Point) (radius : ℝ) (r : Rocket)
    (h : r.destroyed = true) : (explode1 c radius r).destroyed = true := by
  unfold explode1
  by_cases hc : r.destroyed = false ∧ ptDist r.pos c < radius
  · simp [hc]
  · simp [hc, h]

/-- Rockets of the interceptor pass arise from the input rockets by a
sequence of blast passes; in particular the destroyed flag of each rocket
is monotone along the pass. -/
theorem updateInterceptors_rockets_mono (is : List Interceptor) (rs : List Rocket)
    (k : ℕ) (r : Rocket) (h : rs[k]? = some r) (hd : r.destroyed = true) :
    ∃ r2, (updateInterceptors is rs).2.1[k]? = some r2 ∧ r2.destroyed = true := by
  induction is generalizing rs r with
  | nil => exact ⟨r, h, hd⟩
  | cons i is ih =>
    match hi : i.state with
    | IState.FLYING =>
      simp only [updateInterceptors, hi]
      exact ih rs r h hd
    | IState.EXPLODING =>
      simp only [updateInterceptors, hi]
      set rad := if i.explosionTimer < 30 then i.explosionRadius + EXPLOSION_SPEED
                 else i.explosionRadius - EXPLOSION_SPEED with hrad
      have hmem : (explodeRockets i.pos rad rs).1[k]? = some (explode1 i.pos rad r) := by
        rw [explodeRockets_fst]
        rw [List.getElem?_map, h]
        rfl
      exact ih (explodeRockets i.pos rad rs).1 (explode1 i.pos rad r) hmem
        (explode1_mono _ _ _ hd)

/-- Rockets of the simulation frame keep the position of a rocket step. -/
theorem rocketStep1_pos (r : Rocket) : (rocketStep1 r).pos = (moveRocket r).pos := by
  unfold rocketStep1
  by_cases h : r.target.y ≤ (moveRocket r).pos.y
  · simp [h]
  · simp [h]

/-- Destroyed flag is monotone along a rocket step. -/
theorem rocketStep1_mono (r : Rocket) (h : r.destroyed = true) :
    (rocketStep1 r).destroyed = true := by
  unfold rocketStep1
  by_cases hc : r.target.y ≤ (moveRocket r).pos.y
  · simp [hc]
  · simpa [hc, moveRocket_destroyed] using h

/-- Termination checks do not touch the rocket pool. -/
theorem checkTermination_rockets (a : ℤ) (s : SimState) :
    (checkTermination a s).rockets = s.rockets := by
  unfold checkTermination
  by_cases h : sumMissiles s.batteries = 0 ∧ s.rockets = [] ∧ s.interceptors = []
  · simp [h]
  · simp [h]

/-- Claim C2: in every simulation frame the projectile pass moves each
projectile by `speed` along the unit vector from origin to target; the
destroyed flag only ever goes from false to true (both in the rocket pass
and in the blast pass), a projectile that reaches its target's
y-coordinate is marked destroyed in that same frame (and, being removed
by the cleanup, can never resolve impact again: every rocket surviving a
frame is non-destroyed, so only live projectiles are ever moved), and the
vertical position reaches the target within `⌈dist / speed⌉` steps. -/
theorem C2_projectile_invariants :
    (∀ (rs : List Rocket) (cs : List City) (bs : List Battery),
        (updateRockets rs cs bs).1 = rs.map rocketStep1) ∧
    (∀ r : Rocket,
        (rocketStep1 r).pos.x = r.pos.x + (r.target.x - r.start.x) / rocketDist r * r.speed ∧
        (rocketStep1 r).pos.y = r.pos.y + (r.target.y - r.start.y) / rocketDist r * r.speed) ∧
    (∀ r : Rocket, r.destroyed = true → (rocketStep1 r).destroyed = true) ∧
    (∀ (is : List Interceptor) (rs : List Rocket) (k : ℕ) (r : Rocket),
        rs[k]? = some r → r.destroyed = true →
        ∃ r2, (updateInterceptors is rs).2.1[k]? = some r2 ∧ r2.destroyed = true) ∧
    (∀ r : Rocket, r.target.y ≤ (moveRocket r).pos.y → (rocketStep1 r).destroyed = true) ∧
    (∀ (s : SimState) (time last : ℝ) (choice : ℕ) (sx : ℝ),
        ∀ r ∈ (update s time last choice sx).rockets, r.destroyed = false) ∧
    (∀ r : Rocket, r.pos = r.start → 0 < r.speed → r.start.y < r.target.y →
        r.target.y ≤ (moveRocket^[⌈rocketDist r / r.speed⌉₊] r).pos.y) := by
  refine ⟨updateRockets_fst, ?_, rocketStep1_mono, updateInterceptors_rockets_mono, ?_, ?_, moveRocket_converges⟩
  · intro r
    rw [rocketStep1_pos]
    exact ⟨rfl, rfl⟩
  · intro r h
    unfold rocketStep1
    simp [h]
  · intro s time last choice sx r hr
    rw [update, checkTermination_rockets] at hr
    have hr2 : r ∈ cleanupRockets
        (updateInterceptors s.interceptors
          (updateRockets (spawnPhase s time last choice sx) s.cities s.batteries).1).2.1 := hr
    simpa using (List.mem_filter.mp hr2).2

/-- Witness for C2 at the concrete vertical rocket: it reaches its target
within the claimed number of steps, and a destroyed rocket stays
destroyed across a step. -/
theorem C2_projectile_invariants_witness :
    vertRocket.pos = vertRocket.start ∧ (0:ℝ) < vertRocket.speed ∧
    vertRocket.start.y < vertRocket.target.y ∧
    vertRocket.target.y ≤
      (moveRocket^[⌈rocketDist vertRocket / vertRocket.speed⌉₊] vertRocket).pos.y ∧
    (rocketStep1 { vertRocket with destroyed := true }).destroyed = true := by
  have h1 : vertRocket.pos = vertRocket.start := rfl
  have h2 : (0:ℝ) < vertRocket.speed := by norm_num [vertRocket]
  have h3 : vertRocket.start.y < vertRocket.target.y := by norm_num [vertRocket]
  exact ⟨h1, h2, h3, C2_projectile_invariants.2.2.2.2.2.2 vertRocket h1 h2 h3,
    C2_projectile_invariants.2.2.1 _ rfl⟩

/-- Claim C3 counterexample: with origin equal to target the source divides
zero by zero, so the positions become NaN (modelled `none`); the
kinematics step does not leave the position unchanged. -/
theorem C3_counterexample :
    moveposNaN ⟨0, 0⟩ ⟨0, 0⟩ ⟨0, 0⟩ INTERCEPTOR_SPEED = none ∧
    ¬ moveposNaN ⟨0, 0⟩ ⟨0, 0⟩ ⟨0, 0⟩ INTERCEPTOR_SPEED = some ⟨0, 0⟩ := by
  have h : moveposNaN ⟨0, 0⟩ ⟨0, 0⟩ ⟨0, 0⟩ INTERCEPTOR_SPEED = none := by
    simp [moveposNaN]
  refine ⟨h, ?_⟩
  rw [h]
  simp

/-- Claim C3 (amended): the kinematics step is total (never throws), but on
a zero-length direction vector the IEEE division yields NaN and the
position becomes NaN rather than staying unchanged; on every
non-degenerate input the step agrees with the unit-vector movement
`moveRocket`. -/
theorem C3_degenerate_kinematics :
    (∀ (a p : Point) (speed : ℝ), moveposNaN a a p speed = none) ∧
    (∀ r : Rocket, rocketDist r ≠ 0 →
        moveposNaN r.start r.target r.pos r.speed = some (moveRocket r).pos) := by
  constructor
  · intro a p speed
    simp [moveposNaN]
  · intro r h
    have h2 : ¬ Real.sqrt ((r.target.x - r.start.x) * (r.target.x - r.start.x) +
        (r.target.y - r.start.y) * (r.target.y - r.start.y)) = 0 := h
    simp only [moveposNaN]
    rw [if_neg h2]
    rfl

/-- Witness for C3 at concrete inputs: a degenerate interceptor aimed at
its own origin gets a NaN position, and the vertical rocket moves
normally. -/
theorem C3_degenerate_kinematics_witness :
    moveposNaN ⟨3, 4⟩ ⟨3, 4⟩ ⟨1, 2⟩ 12 = none ∧
    moveposNaN vertRocket.start vertRocket.target vertRocket.pos vertRocket.speed =
      some (moveRocket vertRocket).pos := by
  refine ⟨C3_degenerate_kinematics.1 _ _ _, C3_degenerate_kinematics.2 vertRocket ?_⟩
  have hv : rocketDist vertRocket = Real.sqrt 608400 := by
    simp only [rocketDist, vertRocket]
    norm_num
  have h780 : rocketDist vertRocket = 780 := by
    rw [hv, show (608400:ℝ) = 780 ^ 2 by norm_num,
      Real.sqrt_sq (by norm_num : (0:ℝ) ≤ 780)]
  rw [h780]
  norm_num

/-- Claim C7: the spawn interval is `max(300, 2000 - level*150 - round*100)`,
weakly decreasing in level and round and floored at 300, equal to 1750 at
level 1, round 1; and whenever the elapsed time exceeds the interval (and
an eligible target exists) the spawn phase appends exactly one new
projectile, otherwise none. -/
theorem C7_spawn_policy :
    (∀ l1 l2 r1 r2 : ℕ, l1 ≤ l2 → r1 ≤ r2 → spawnInterval l2 r2 ≤ spawnInterval l1 r1) ∧
    (∀ l r : ℕ, 300 ≤ spawnInterval l r) ∧
    spawnInterval 1 1 = 1750 ∧
    (∀ (s : SimState) (time last : ℝ) (choice : ℕ) (sx : ℝ),
        spawnTargets s.cities s.batteries ≠ [] →
        (spawnInterval s.level s.round : ℝ) < time - last →
        ∃ rk : Rocket, spawnPhase s time last choice sx = s.rockets ++ [rk] ∧
          rk.destroyed = false ∧
          rk.speed = ROCKET_BASE_SPEED + (s.level : ℝ) * 0.3 + (s.round : ℝ) * 0.1) ∧
    (∀ (s : SimState) (time last : ℝ) (choice : ℕ) (sx : ℝ),
        ¬ (spawnInterval s.level s.round : ℝ) < time - last →
        spawnPhase s time last choice sx = s.rockets) := by
  refine ⟨?_, ?_, ?_, ?_, ?_⟩
  · intro l1 l2 r1 r2 h1 h2
    simp only [spawnInterval]
    omega
  · intro l r
    simp only [spawnInterval]
    omega
  · simp only [spawnInterval]
    norm_num
  · intro s time last choice sx htgt helap
    have hsp : spawnRocket s choice sx = some
        { id := 0, start := ⟨sx, 0⟩, pos := ⟨sx, 0⟩,
          target := (spawnTargets s.cities s.batteries).getD
            (choice % (spawnTargets s.cities s.batteries).length) ⟨0, 0⟩,
          speed := ROCKET_BASE_SPEED + (s.level : ℝ) * 0.3 + (s.round : ℝ) * 0.1,
          destroyed := false } := by
      unfold spawnRocket
      rw [if_neg htgt]
    unfold spawnPhase
    rw [if_pos helap, hsp]
    exact ⟨_, rfl, rfl, rfl⟩
  · intro s time last choice sx h
    unfold spawnPhase
    rw [if_neg h]

/-- Witness for C7 at the initial configuration: the interval at level 1,
round 1 is 1750, elapsed time 2000 spawns exactly one rocket, and the
interval at level 2 is no longer than at level 1. -/
theorem C7_spawn_policy_witness :
    spawnInterval 1 1 = 1750 ∧
    (∃ rk : Rocket,
      spawnPhase ⟨0, 1, 1, GState.PLAYING, [], [], initialCities, initialBatteries⟩
          2000 0 0 500 = [] ++ [rk] ∧ rk.destroyed = false ∧
      rk.speed = ROCKET_BASE_SPEED + ((1:ℕ) : ℝ) * 0.3 + ((1:ℕ) : ℝ) * 0.1) ∧
    spawnInterval 2 1 ≤ spawnInterval 1 1 := by
  refine ⟨C7_spawn_policy.2.2.1, ?_, C7_spawn_policy.1 1 2 1 1 (by norm_num) le_rfl⟩
  refine C7_spawn_policy.2.2.2.1 _ 2000 0 0 500 ?_ ?_
  · simp [spawnTargets, initialCities, initialBatteries]
  · have h : spawnInterval 1 1 = 1750 := C7_spawn_policy.2.2.1
    rw [h]
    norm_num

/-- Mapping a function that fixes every member is the identity. -/
theorem map_self_of_mem {α : Type} (l : List α) (f : α → α) (h : ∀ a ∈ l, f a = a) :
    l.map f = l := by
  induction l with
  | nil => rfl
  | cons a l ih =>
    rw [List.map_cons, h a (List.mem_cons_self a l), ih (fun b hb => h b (List.mem_cons_of_mem a hb))]

/-- With no battery at the impact x-position the battery damage pass is the
identity. -/
theorem damageBatteries_of_no_match (tx : ℝ) (bs : List Battery)
    (h : ∀ b ∈ bs, b.x ≠ tx) : damageBatteries tx bs = bs := by
  induction bs with
  | nil => rfl
  | cons b bs ih =>
    have hb : ¬ b.x = tx := h b (List.mem_cons_self b bs)
    rw [damageBatteries, if_neg hb, ih (fun b2 hb2 => h b2 (List.mem_cons_of_mem b hb2))]

/-- With no active city at the impact x-position the city damage pass is
the identity (an inactive match is found and left unchanged). -/
theorem damageCities_of_no_active_match (tx : ℝ) (cs : List City)
    (h : ∀ c ∈ cs, ¬ (c.x = tx ∧ c.active = true)) : damageCities tx cs = cs := by
  induction cs with
  | nil => rfl
  | cons c cs ih =>
    by_cases hx : c.x = tx
    · have hact : ¬ c.active = true := fun ha => h c (List.mem_cons_self c cs) ⟨hx, ha⟩
      rw [damageCities, if_pos hx, if_neg hact]
    · rw [damageCities, if_neg hx, ih (fun c2 hc2 => h c2 (List.mem_cons_of_mem c hc2))]

/-- With pairwise-distinct x-positions the battery damage pass deactivates
precisely the battery at the impact x-position. -/
theorem damageBatteries_of_match (tx : ℝ) (bs : List Battery)
    (hbs : bs.Pairwise (fun a b => a.x ≠ b.x)) (hex : ∃ b ∈ bs, b.x = tx) :
    damageBatteries tx bs = bs.map (fun b =>
      if b.x = tx then { b with active := false } else b) := by
  induction bs with
  | nil => exact absurd hex (by simp)
  | cons b bs ih =>
    rw [List.pairwise_cons] at hbs
    by_cases hx : b.x = tx
    · rw [damageBatteries, if_pos hx, List.map_cons, if_pos hx,
        map_self_of_mem bs _ (fun b2 hb2 => by
          have : ¬ b2.x = tx := hx ▸ (hbs.1 b2 hb2).symm
          rw [if_neg this])]
    · obtain ⟨b2, hb2, hb2x⟩ := hex
      have hb2m : b2 ∈ bs := by
        rcases List.mem_cons.mp hb2 with h1 | h1
        · exact absurd (h1 ▸ hb2x) hx
        · exact h1
      rw [damageBatteries, if_neg hx, List.map_cons, if_neg hx, ih hbs.2 ⟨b2, hb2m, hb2x⟩]

/-- With pairwise-distinct x-positions, an invariant that active cities
hold at least one shield, and an active city at the impact x-position,
the city damage pass decrements exactly that city's shields and
deactivates it exactly when they reach zero. -/
theorem damageCities_of_match (tx : ℝ) (cs : List City)
    (hcs : cs.Pairwise (fun a b => a.x ≠ b.x))
    (hsh : ∀ c ∈ cs, c.active = true → 1 ≤ c.shields)
    (hex : ∃ c ∈ cs, c.x = tx ∧ c.active = true) :
    damageCities tx cs = cs.map (fun c =>
      if c.x = tx ∧ c.active = true then
        { c with shields := c.shields - 1, active := decide (c.shields - 1 ≠ 0) }
      else c) := by
  induction cs with
  | nil => exact absurd hex (by simp)
  | cons c cs ih =>
    rw [List.pairwise_cons] at hcs
    by_cases hx : c.x = tx
    · have hact : c.active = true := by
        obtain ⟨c2, hc2, hc2x, hc2a⟩ := hex
        rcases List.mem_cons.mp hc2 with h1 | h1
        · exact h1 ▸ hc2a
        · exact absurd (hx.trans hc2x.symm) (hcs.1 c2 h1)
      have hone : 1 ≤ c.shields := hsh c (List.mem_cons_self c cs) hact
      have htail : cs.map (fun c2 =>
          if c2.x = tx ∧ c2.active = true then
            { c2 with shields := c2.shields - 1, active := decide (c2.shields - 1 ≠ 0) }
          else c2) = cs :=
        map_self_of_mem cs _ (fun c2 hc2 => by
          have : ¬ (c2.x = tx ∧ c2.active = true) :=
            fun hc => (hcs.1 c2 hc2) (hx.trans hc.1.symm)
          rw [if_neg this])
      obtain ⟨cid, cx, cact, csh⟩ := c
      simp only [City.mk.injEq] at *
      subst hact
      by_cases hz : csh - 1 ≤ 0
      · have hz0 : csh - 1 = 0 := by omega
        simp only [damageCities, List.map_cons, htail]
        simp [hx, hz, hz0]
      · have hnz : csh - 1 ≠ 0 := by omega
        simp only [damageCities, List.map_cons, htail]
        simp [hx, hz, hnz]
    · obtain ⟨c2, hc2, hc2x, hc2a⟩ := hex
      have hc2m : c2 ∈ cs := by
        rcases List.mem_cons.mp hc2 with h1 | h1
        · exact absurd (h1 ▸ hc2x) hx
        · exact h1
      have hnc : ¬ (c.x = tx ∧ c.active = true) := fun hc => hx hc.1
      rw [damageCities, if_neg hx, List.map_cons, if_neg hnc,
        ih hcs.2 (fun c3 hc3 => hsh c3 (List.mem_cons_of_mem c hc3)) ⟨c2, hc2m, ⟨hc2x, hc2a⟩⟩]

/-- Claim C4: a projectile reaching or passing its target's y-coordinate is
marked destroyed in that frame; then, with pairwise-distinct x-positions
within and across the city and battery rows (as in the game's
configuration) and active cities holding at least one shield: an active
city at the target x loses exactly one shield and is deactivated exactly
when its shields reach zero while the batteries are untouched; a battery
at the target x is deactivated; and with no matching x the damage passes
are the identity (a no-op, no error) while the projectile is still
destroyed. -/
theorem C4_impact_resolution (cs : List City) (bs : List Battery) (tx : ℝ)
    (hcs : cs.Pairwise (fun a b => a.x ≠ b.x))
    (hbs : bs.Pairwise (fun a b => a.x ≠ b.x))
    (hdisj : ∀ c ∈ cs, ∀ b ∈ bs, c.x ≠ b.x)
    (hsh : ∀ c ∈ cs, c.active = true → 1 ≤ c.shields) :
    (∀ r : Rocket, r.target.y ≤ (moveRocket r).pos.y → (rocketStep1 r).destroyed = true) ∧
    ((∃ c ∈ cs, c.x = tx ∧ c.active = true) →
        damageCities tx cs = cs.map (fun c =>
          if c.x = tx ∧ c.active = true then
            { c with shields := c.shields - 1, active := decide (c.shields - 1 ≠ 0) }
          else c) ∧
        damageBatteries tx bs = bs) ∧
    ((∀ c ∈ cs, ¬ (c.x = tx ∧ c.active = true)) → damageCities tx cs = cs) ∧
    ((∃ b ∈ bs, b.x = tx) →
        damageBatteries tx bs = bs.map (fun b =>
          if b.x = tx then { b with active := false } else b)) ∧
    ((∀ b ∈ bs, b.x ≠ tx) → damageBatteries tx bs = bs) := by
  refine ⟨?_, ?_, damageCities_of_no_active_match tx cs,
    damageBatteries_of_match tx bs hbs, damageBatteries_of_no_match tx bs⟩
  · intro r h
    unfold rocketStep1
    simp [h]
  · intro hex
    refine ⟨damageCities_of_match tx cs hcs hsh hex, ?_⟩
    obtain ⟨c, hc, hcx, -⟩ := hex
    exact damageBatteries_of_no_match tx bs
      (fun b hb hbtx => hdisj c hc b hb (hcx.trans hbtx.symm))

/-- Witness for C4 at the game's initial configuration with an impact on
the city at x = 200. -/
theorem C4_impact_resolution_witness :
    damageCities 200 initialCities = initialCities.map (fun c =>
      if c.x = 200 ∧ c.active = true then
        { c with shields := c.shields - 1, active := decide (c.shields - 1 ≠ 0) }
      else c) ∧
    damageBatteries 200 initialBatteries = initialBatteries := by
  refine (C4_impact_resolution initialCities initialBatteries 200 ?_ ?_ ?_ ?_).2.1 ?_
  · norm_num [initialCities, List.pairwise_cons]
  · norm_num [initialBatteries, List.pairwise_cons]
  · norm_num [initialCities, initialBatteries]
  · norm_num [initialCities]
  · exact ⟨⟨1, 200, true, 3⟩, by norm_num [initialCities], rfl, rfl⟩

/-- Spawn phase with the interval not yet elapsed leaves rockets alone. -/
theorem spawnPhase_no_spawn (s : SimState) (time last : ℝ) (choice : ℕ) (sx : ℝ)
    (h : ¬ (spawnInterval s.level s.round : ℝ) < time - last) :
    spawnPhase s time last choice sx = s.rockets := by
  unfold spawnPhase
  rw [if_neg h]

/-- A frame on empty entity pools with the spawn interval not elapsed is
the identity on the state. -/
theorem stepEntities_of_empty (s : SimState) (time last : ℝ) (choice : ℕ) (sx : ℝ)
    (hr : s.rockets = []) (hi : s.interceptors = [])
    (hsp : ¬ (spawnInterval s.level s.round : ℝ) < time - last) :
    stepEntities s time last choice sx = s := by
  obtain ⟨sc, lv, rd, gs, rks, its, cs, bs⟩ := s
  simp only at hr hi
  subst hr
  subst hi
  unfold stepEntities
  rw [spawnPhase_no_spawn _ _ _ _ _ hsp]
  simp [updateRockets, updateInterceptors, cleanupRockets, cleanupInterceptors]

/-- Claim C1 counterexample: with every battery inactive but also zero
total ammo and clear pools, the frame ends in ROUND_END (the
ammo-exhaustion branch overrides the loss assignment), not in LOST as the
claim requires. -/
theorem C1_counterexample :
    (∀ b ∈ C1state.batteries, b.active = false) ∧
    (update C1state 0 0 0 0).gameState = GState.ROUND_END ∧
    GState.ROUND_END ≠ GState.LOST := by
  have h1 : spawnInterval 1 1 = 1750 := by
    simp only [spawnInterval]
    norm_num
  have hsp : ¬ (spawnInterval C1state.level C1state.round : ℝ) < 0 - 0 := by
    show ¬ (spawnInterval 1 1 : ℝ) < 0 - 0
    rw [h1]
    norm_num
  have hstep : stepEntities C1state 0 0 0 0 = C1state :=
    stepEntities_of_empty C1state 0 0 0 0 rfl rfl hsp
  have hex : sumMissiles C1state.batteries = 0 ∧ C1state.rockets = [] ∧
      C1state.interceptors = [] := by
    refine ⟨?_, rfl, rfl⟩
    simp [sumMissiles, C1state]
  refine ⟨?_, ?_, by decide⟩
  · intro b hb
    simp only [C1state, List.mem_cons, List.not_mem_nil, or_false] at hb
    rcases hb with rfl | rfl | rfl <;> rfl
  · have hupd : update C1state 0 0 0 0 =
        checkTermination C1state.score (stepEntities C1state 0 0 0 0) := rfl
    rw [hupd, hstep]
    unfold checkTermination
    rw [if_pos hex]

/-- Claim C1 (amended): the loss check (a) and the level-goal check (b)
form an if/else pair, but the ammo-exhaustion check (c) is evaluated
independently afterwards and, when its condition holds on the
post-kinematics state, it adds the completion bonus and ends the frame in
ROUND_END, overriding (a) and (b).  Only when (c) does not hold do the
checks behave as the claim orders them: all batteries inactive gives
LOST; otherwise a frame-start score at or above `level * winScorePerLevel`
gives ROUND_END; otherwise the session state is unchanged. -/
theorem C1_termination_order (s : SimState) (time last : ℝ) (choice : ℕ) (sx : ℝ) :
    (sumMissiles (stepEntities s time last choice sx).batteries = 0 ∧
        (stepEntities s time last choice sx).rockets = [] ∧
        (stepEntities s time last choice sx).interceptors = [] →
      (update s time last choice sx).gameState = GState.ROUND_END ∧
      (update s time last choice sx).score =
        (stepEntities s time last choice sx).score +
          completionBonus (stepEntities s time last choice sx).cities) ∧
    (¬ (sumMissiles (stepEntities s time last choice sx).batteries = 0 ∧
        (stepEntities s time last choice sx).rockets = [] ∧
        (stepEntities s time last choice sx).interceptors = []) →
      ((stepEntities s time last choice sx).batteries.all (fun b => !b.active)) = true →
      (update s time last choice sx).gameState = GState.LOST ∧
      (update s time last choice sx).score = (stepEntities s time last choice sx).score) ∧
    (¬ (sumMissiles (stepEntities s time last choice sx).batteries = 0 ∧
        (stepEntities s time last choice sx).rockets = [] ∧
        (stepEntities s time last choice sx).interceptors = []) →
      ((stepEntities s time last choice sx).batteries.all (fun b => !b.active)) = false →
      (s.level : ℤ) * WIN_SCORE_PER_LEVEL ≤ s.score →
      (update s time last choice sx).gameState = GState.ROUND_END ∧
      (update s time last choice sx).score = (stepEntities s time last choice sx).score) ∧
    (¬ (sumMissiles (stepEntities s time last choice sx).batteries = 0 ∧
        (stepEntities s time last choice sx).rockets = [] ∧
        (stepEntities s time last choice sx).interceptors = []) →
      ((stepEntities s time last choice sx).batteries.all (fun b => !b.active)) = false →
      ¬ ((s.level : ℤ) * WIN_SCORE_PER_LEVEL ≤ s.score) →
      (update s time last choice sx).gameState = s.gameState ∧
      (update s time last choice sx).score = (stepEntities s time last choice sx).score) := by
  have hupd : update s time last choice sx =
      checkTermination s.score (stepEntities s time last choice sx) := rfl
  set st := stepEntities s time last choice sx with hst
  by_cases hex : sumMissiles st.batteries = 0 ∧ st.rockets = [] ∧ st.interceptors = []
  · have hct : checkTermination s.score st =
        { st with score := st.score + completionBonus st.cities,
                  gameState := GState.ROUND_END } := by
      unfold checkTermination
      rw [if_pos hex]
    rw [hupd, hct]
    exact ⟨fun _ => ⟨rfl, rfl⟩, fun h => absurd hex h, fun h => absurd hex h,
      fun h => absurd hex h⟩
  · refine ⟨fun h => absurd h hex, ?_, ?_, ?_⟩
    · intro _ hall
      rw [hupd]
      unfold checkTermination
      rw [if_neg hex]
      constructor
      · simp [hall]
      · rfl
    · intro _ hall hgoal
      rw [hupd]
      unfold checkTermination
      rw [if_neg hex]
      constructor
      · simp only [hall, Bool.false_eq_true, if_false]
        rw [if_pos (show (st.level : ℤ) * WIN_SCORE_PER_LEVEL ≤ s.score from hgoal)]
      · rfl
    · intro _ hall hgoal
      rw [hupd]
      unfold checkTermination
      rw [if_neg hex]
      constructor
      · simp only [hall, Bool.false_eq_true, if_false]
        rw [if_neg (show ¬ (st.level : ℤ) * WIN_SCORE_PER_LEVEL ≤ s.score from hgoal)]
        rfl
      · rfl

/-- Witness for C1 at a concrete state with every battery inactive but
ammo remaining: the frame ends in LOST. -/
theorem C1_termination_order_witness :
    (update C1lossState 0 0 0 0).gameState = GState.LOST ∧
    (update C1lossState 0 0 0 0).score = (stepEntities C1lossState 0 0 0 0).score := by
  have h1 : spawnInterval 1 1 = 1750 := by
    simp only [spawnInterval]
    norm_num
  have hsp : ¬ (spawnInterval C1lossState.level C1lossState.round : ℝ) < 0 - 0 := by
    show ¬ (spawnInterval 1 1 : ℝ) < 0 - 0
    rw [h1]
    norm_num
  have hstep : stepEntities C1lossState 0 0 0 0 = C1lossState :=
    stepEntities_of_empty C1lossState 0 0 0 0 rfl rfl hsp
  refine (C1_termination_order C1lossState 0 0 0 0).2.1 ?_ ?_
  · rw [hstep]
    intro h
    have := h.1
    simp [sumMissiles, C1lossState] at this
  · rw [hstep]
    rfl

/-- Termination checks do not touch the interceptor pool. -/
theorem checkTermination_interceptors (a : ℤ) (s : SimState) :
    (checkTermination a s).interceptors = s.interceptors := by
  unfold checkTermination
  by_cases h : sumMissiles s.batteries = 0 ∧ s.rockets = [] ∧ s.interceptors = []
  · simp [h]
  · simp [h]

/-- Claim C9 (failing input): a fired interceptor reaching its target
transitions to EXPLODING with explosion radius still 0, and the very same
frame's cleanup removes it (radius not positive, no longer FLYING), so it
never grows, never shrinks and never damages anything — contradicting the
claimed unimodal radius trace with a 30-tick growth phase. -/
theorem C9_flight_interceptor_vanishes :
    ((updateInterceptors C9state.interceptors []).1.map (fun i => i.state))
      = [IState.EXPLODING] ∧
    ((updateInterceptors C9state.interceptors []).1.map (fun i => i.explosionRadius))
      = [0] ∧
    (update C9state 0 0 0 0).interceptors = [] := by
  have hsqrt1 : Real.sqrt (((500:ℝ) - 500) * (500 - 500) + ((60:ℝ) - 760) * (60 - 760))
      = 700 := by
    have harg : ((500:ℝ) - 500) * (500 - 500) + ((60:ℝ) - 760) * (60 - 760) = 700 ^ 2 := by
      norm_num
    rw [harg, Real.sqrt_sq (by norm_num : (0:ℝ) ≤ 700)]
  have hmove : moveInterceptor ⟨0, ⟨500, 760⟩, ⟨500, 70⟩, ⟨500, 60⟩, 12, IState.FLYING, 0, 60, 0⟩
      = ⟨0, ⟨500, 760⟩, ⟨500, 58⟩, ⟨500, 60⟩, 12, IState.FLYING, 0, 60, 0⟩ := by
    simp only [moveInterceptor]
    rw [hsqrt1]
    norm_num
  have hpt : ptDist ⟨500, 58⟩ ⟨500, 60⟩ = 2 := by
    simp only [ptDist]
    have harg : ((500:ℝ) - 500) * (500 - 500) + ((58:ℝ) - 60) * (58 - 60) = 2 ^ 2 := by
      norm_num
    rw [harg, Real.sqrt_sq (by norm_num : (0:ℝ) ≤ 2)]
  have hui : updateInterceptors C9state.interceptors [] =
      ([⟨0, ⟨500, 760⟩, ⟨500, 58⟩, ⟨500, 60⟩, 12, IState.EXPLODING, 0, 60, 0⟩], [], 0) := by
    show updateInterceptors
      [⟨0, ⟨500, 760⟩, ⟨500, 70⟩, ⟨500, 60⟩, 12, IState.FLYING, 0, 60, 0⟩] [] = _
    simp only [updateInterceptors, hmove, hpt]
    rw [if_pos (by norm_num : (2:ℝ) < 12)]
  have hclean : cleanupInterceptors
      [⟨0, ⟨500, 760⟩, ⟨500, 58⟩, ⟨500, 60⟩, 12, IState.EXPLODING, 0, 60, 0⟩] = [] := by
    unfold cleanupInterceptors
    rw [if_neg (by simp)]
    rfl
  have h1 : spawnInterval 1 1 = 1750 := by
    simp only [spawnInterval]
    norm_num
  have hsp : ¬ (spawnInterval C9state.level C9state.round : ℝ) < 0 - 0 := by
    show ¬ (spawnInterval 1 1 : ℝ) < 0 - 0
    rw [h1]
    norm_num
  refine ⟨by rw [hui]; rfl, by rw [hui]; rfl, ?_⟩
  have hint : (stepEntities C9state 0 0 0 0).interceptors = [] := by
    show cleanupInterceptors (updateInterceptors C9state.interceptors
      (updateRockets (spawnPhase C9state 0 0 0 0) C9state.cities C9state.batteries).1).1 = []
    rw [spawnPhase_no_spawn _ _ _ _ _ hsp]
    show cleanupInterceptors (updateInterceptors C9state.interceptors
      (updateRockets [] C9state.cities C9state.batteries).1).1 = []
    simp only [updateRockets]
    rw [hui, hclean]
  have hupd : (update C9state 0 0 0 0).interceptors =
      (stepEntities C9state 0 0 0 0).interceptors :=
    checkTermination_interceptors _ _
  rw [hupd, hint]

/-- With no active battery holding ammo the selection fold returns
nothing. -/
theorem selectBatteryAux_none (x : ℝ) (l : List Battery)
    (h : ∀ b ∈ l, ¬ (b.active = true ∧ 0 < b.missiles)) :
    ∀ i0 : ℕ, selectBatteryAux x l i0 none = none := by
  induction l with
  | nil => intro i0; rfl
  | cons b bs ih =>
    intro i0
    have hb : ¬ (b.active = true ∧ 0 < b.missiles) := h b (List.mem_cons_self b bs)
    simp only [selectBatteryAux]
    rw [if_neg hb]
    exact ih (fun b2 hb2 => h b2 (List.mem_cons_of_mem b hb2)) (i0 + 1)

/-- The selection fold returns an eligible battery of the list, at its
index, with its recorded distance. -/
theorem selectBatteryAux_spec (x : ℝ) (l : List Battery) :
    ∀ (full : List Battery) (i0 : ℕ) (acc : Option (ℕ × Battery × ℝ)),
    full.drop i0 = l →
    (∀ j b d, acc = some (j, b, d) →
      full[j]? = some b ∧ b.active = true ∧ 0 < b.missiles ∧ d = |b.x - x|) →
    ∀ j b d, selectBatteryAux x l i0 acc = some (j, b, d) →
      full[j]? = some b ∧ b.active = true ∧ 0 < b.missiles ∧ d = |b.x - x| := by
  induction l with
  | nil =>
    intro full i0 acc hdrop hacc j b d hres
    exact hacc j b d hres
  | cons b0 bs ih =>
    intro full i0 acc hdrop hacc j b d hres
    have hget : full[i0]? = some b0 := by
      have h1 := List.getElem?_drop full i0 0
      rw [hdrop] at h1
      simpa using h1.symm
    have hdrop2 : full.drop (i0 + 1) = bs := by
      have h1 : List.drop 1 (List.drop i0 full) = List.drop (i0 + 1) full :=
        List.drop_drop 1 i0 full
      rw [hdrop] at h1
      simpa using h1.symm
    rcases acc with _ | ⟨j0, b1, d0⟩
    · simp only [selectBatteryAux] at hres
      by_cases hel : b0.active = true ∧ 0 < b0.missiles
      · rw [if_pos hel] at hres
        refine ih full (i0 + 1) _ hdrop2 ?_ j b d hres
        intro j2 b2 d2 hacc2
        simp only [Option.some.injEq, Prod.mk.injEq] at hacc2
        obtain ⟨rfl, rfl, rfl⟩ := hacc2
        exact ⟨hget, hel.1, hel.2, rfl⟩
      · rw [if_neg hel] at hres
        exact ih full (i0 + 1) none hdrop2 (by simp) j b d hres
    · simp only [selectBatteryAux] at hres
      by_cases hel : b0.active = true ∧ 0 < b0.missiles ∧ |b0.x - x| < d0
      · rw [if_pos hel] at hres
        refine ih full (i0 + 1) _ hdrop2 ?_ j b d hres
        intro j2 b2 d2 hacc2
        simp only [Option.some.injEq, Prod.mk.injEq] at hacc2
        obtain ⟨rfl, rfl, rfl⟩ := hacc2
        exact ⟨hget, hel.1, hel.2.1, rfl⟩
      · rw [if_neg hel] at hres
        refine ih full (i0 + 1) _ hdrop2 ?_ j b d hres
        intro j2 b2 d2 hacc2
        simp only [Option.some.injEq, Prod.mk.injEq] at hacc2
        obtain ⟨rfl, rfl, rfl⟩ := hacc2
        exact hacc _ _ _ rfl

/-- The selection fold minimises the distance among the accumulator and
every eligible battery of the list. -/
theorem selectBatteryAux_min (x : ℝ) (l : List Battery) :
    ∀ (i0 : ℕ) (acc : Option (ℕ × Battery × ℝ)) (j : ℕ) (b : Battery) (d : ℝ),
    selectBatteryAux x l i0 acc = some (j, b, d) →
    (∀ j0 b0 d0, acc = some (j0, b0, d0) → d ≤ d0) ∧
    (∀ b2 ∈ l, b2.active = true → 0 < b2.missiles → d ≤ |b2.x - x|) := by
  induction l with
  | nil =>
    intro i0 acc j b d hres
    refine ⟨?_, by simp⟩
    intro j0 b0 d0 hacc
    rw [hacc] at hres
    simp only [selectBatteryAux, Option.some.injEq, Prod.mk.injEq] at hres
    obtain ⟨-, -, rfl⟩ := hres
    exact le_refl _
  | cons b0 bs ih =>
    intro i0 acc j b d hres
    rcases acc with _ | ⟨j0, b1, d0⟩
    · simp only [selectBatteryAux] at hres
      by_cases hel : b0.active = true ∧ 0 < b0.missiles
      · rw [if_pos hel] at hres
        obtain ⟨hacc2, hlist⟩ := ih (i0 + 1) _ j b d hres
        refine ⟨by simp, ?_⟩
        intro b2 hb2 ha hm
        rcases List.mem_cons.mp hb2 with rfl | hmem
        · exact hacc2 i0 b2 |b2.x - x| rfl
        · exact hlist b2 hmem ha hm
      · rw [if_neg hel] at hres
        obtain ⟨-, hlist⟩ := ih (i0 + 1) none j b d hres
        refine ⟨by simp, ?_⟩
        intro b2 hb2 ha hm
        rcases List.mem_cons.mp hb2 with rfl | hmem
        · exact absurd ⟨ha, hm⟩ hel
        · exact hlist b2 hmem ha hm
    · simp only [selectBatteryAux] at hres
      by_cases hel : b0.active = true ∧ 0 < b0.missiles ∧ |b0.x - x| < d0
      · rw [if_pos hel] at hres
        obtain ⟨hacc2, hlist⟩ := ih (i0 + 1) _ j b d hres
        have hd : d ≤ |b0.x - x| := hacc2 i0 b0 _ rfl
        refine ⟨?_, ?_⟩
        · intro j2 b2 d2 hacc3
          simp only [Option.some.injEq, Prod.mk.injEq] at hacc3
          obtain ⟨-, -, rfl⟩ := hacc3
          exact le_of_lt (lt_of_le_of_lt hd hel.2.2)
        · intro b2 hb2 ha hm
          rcases List.mem_cons.mp hb2 with rfl | hmem
          · exact hd
          · exact hlist b2 hmem ha hm
      · rw [if_neg hel] at hres
        obtain ⟨hacc2, hlist⟩ := ih (i0 + 1) _ j b d hres
        have hdd0 : d ≤ d0 := hacc2 j0 b1 d0 rfl
        refine ⟨?_, ?_⟩
        · intro j2 b2 d2 hacc3
          simp only [Option.some.injEq, Prod.mk.injEq] at hacc3
          obtain ⟨-, -, rfl⟩ := hacc3
          exact hdd0
        · intro b2 hb2 ha hm
          rcases List.mem_cons.mp hb2 with rfl | hmem
          · have hnlt : ¬ |b2.x - x| < d0 := fun hlt => hel ⟨ha, hm, hlt⟩
            exact le_trans hdd0 (not_lt.mp hnlt)
          · exact hlist b2 hmem ha hm

/-- Folding the ammo sum from an arbitrary accumulator. -/
theorem sumMissiles_foldl_init (l : List Battery) :
    ∀ a : ℤ, l.foldl (fun acc b => acc + b.missiles) a =
      a + l.foldl (fun acc b => acc + b.missiles) 0 := by
  induction l with
  | nil => intro a; simp
  | cons b bs ih =>
    intro a
    simp only [List.foldl_cons]
    rw [ih (a + b.missiles), ih (0 + b.missiles)]
    ring

/-- Ammo sum of a cons cell. -/
theorem sumMissiles_cons (b : Battery) (bs : List Battery) :
    sumMissiles (b :: bs) = b.missiles + sumMissiles bs := by
  unfold sumMissiles
  rw [List.foldl_cons, sumMissiles_foldl_init]
  ring_nf

/-- Replacing the battery at a known index changes the ammo sum by the
difference of the two ammo counts. -/
theorem sumMissiles_set (bs : List Battery) :
    ∀ (i : ℕ) (b b2 : Battery), bs[i]? = some b →
    sumMissiles (bs.set i b2) = sumMissiles bs - b.missiles + b2.missiles := by
  induction bs with
  | nil => intro i b b2 h; simp at h
  | cons b0 bs ih =>
    intro i b b2 h
    cases i with
    | zero =>
      simp only [List.getElem?_cons_zero, Option.some.injEq] at h
      subst h
      rw [List.set_cons_zero, sumMissiles_cons, sumMissiles_cons]
      ring
    | succ n =>
      simp only [List.getElem?_cons_succ] at h
      rw [List.set_cons_succ, sumMissiles_cons, sumMissiles_cons, ih n b b2 h]
      ring

/-- Firing never touches the rockets. -/
theorem fireInterceptor_rockets (s : SimState) (x y : ℝ) :
    (fireInterceptor s x y).rockets = s.rockets := by
  unfold fireInterceptor
  by_cases h : s.gameState = GState.PLAYING
  · rw [if_pos h]
    rcases hsel : selectBattery s.batteries x with _ | ⟨i, b, d⟩ <;> rfl
  · rw [if_neg h]

/-- Firing never touches the score. -/
theorem fireInterceptor_score (s : SimState) (x y : ℝ) :
    (fireInterceptor s x y).score = s.score := by
  unfold fireInterceptor
  by_cases h : s.gameState = GState.PLAYING
  · rw [if_pos h]
    rcases hsel : selectBattery s.batteries x with _ | ⟨i, b, d⟩ <;> rfl
  · rw [if_neg h]

/-- Unfolding of a successful fire request. -/
theorem fireInterceptor_of_some (s : SimState) (x y : ℝ) (i : ℕ) (b : Battery) (d : ℝ)
    (hgs : s.gameState = GState.PLAYING)
    (hsel : selectBattery s.batteries x = some (i, b, d)) :
    fireInterceptor s x y =
      { s with batteries := s.batteries.set i { b with missiles := b.missiles - 1 },
               interceptors := s.interceptors ++
                 (if b.id = 1 then
                   [mkInterceptor b.x x y (-30), mkInterceptor b.x x y 0,
                    mkInterceptor b.x x y 30]
                  else [mkInterceptor b.x x y 0]) } := by
  unfold fireInterceptor
  rw [if_pos hgs, hsel]

/-- A fire request with no eligible battery does nothing. -/
theorem fireInterceptor_of_none (s : SimState) (x y : ℝ)
    (hsel : selectBattery s.batteries x = none) :
    fireInterceptor s x y = s := by
  unfold fireInterceptor
  by_cases h : s.gameState = GState.PLAYING
  · rw [if_pos h, hsel]
  · rw [if_neg h]

/-- Claim C6: a successful fire request decrements the selected battery's
ammo by exactly one (the total ammo drops by exactly one, every other
battery is untouched), the selected battery is active with ammo, and the
centre battery (id 1) spawns exactly three interceptors with lateral
offsets −30, 0, +30 applied to both origin x and target x, while any
other battery spawns exactly one interceptor aimed at the tap point. -/
theorem C6_fire_request (s : SimState) (x y : ℝ) (i : ℕ) (b : Battery) (d : ℝ)
    (hgs : s.gameState = GState.PLAYING)
    (hsel : selectBattery s.batteries x = some (i, b, d)) :
    s.batteries[i]? = some b ∧ b.active = true ∧ 0 < b.missiles ∧
    (fireInterceptor s x y).batteries =
      s.batteries.set i { b with missiles := b.missiles - 1 } ∧
    sumMissiles (fireInterceptor s x y).batteries = sumMissiles s.batteries - 1 ∧
    (∀ j : ℕ, i ≠ j → (fireInterceptor s x y).batteries[j]? = s.batteries[j]?) ∧
    (b.id = 1 → (fireInterceptor s x y).interceptors = s.interceptors ++
      [mkInterceptor b.x x y (-30), mkInterceptor b.x x y 0, mkInterceptor b.x x y 30]) ∧
    (b.id ≠ 1 → (fireInterceptor s x y).interceptors =
      s.interceptors ++ [mkInterceptor b.x x y 0]) ∧
    (∀ off : ℝ, (mkInterceptor b.x x y off).start.x = b.x + off ∧
      (mkInterceptor b.x x y off).pos.x = b.x + off ∧
      (mkInterceptor b.x x y off).target.x = x + off ∧
      (mkInterceptor b.x x y off).target.y = y ∧
      (mkInterceptor b.x x y off).state = IState.FLYING ∧
      (mkInterceptor b.x x y off).explosionRadius = 0) := by
  obtain ⟨hget, hact, hammo, hd⟩ :=
    selectBatteryAux_spec x s.batteries s.batteries 0 none rfl (by simp) i b d hsel
  have hfi := fireInterceptor_of_some s x y i b d hgs hsel
  refine ⟨hget, hact, hammo, by rw [hfi], ?_, ?_, ?_, ?_, ?_⟩
  · rw [hfi]
    show sumMissiles (s.batteries.set i { b with missiles := b.missiles - 1 }) = _
    rw [sumMissiles_set s.batteries i b _ hget]
    show sumMissiles s.batteries - b.missiles + (b.missiles - 1) = _
    ring
  · intro j hj
    rw [hfi]
    exact List.getElem?_set_ne hj
  · intro hid
    rw [hfi]
    show s.interceptors ++ (if b.id = 1 then _ else _) = _
    rw [if_pos hid]
  · intro hid
    rw [hfi]
    show s.interceptors ++ (if b.id = 1 then _ else _) = _
    rw [if_neg hid]
  · intro off
    exact ⟨rfl, rfl, rfl, rfl, rfl, rfl⟩

/-- Witness for C6: the single centre battery fires a triple for one unit
of ammo. -/
theorem C6_fire_request_witness :
    (fireInterceptor C6state 500 600).batteries =
      C6state.batteries.set 0
        { id := 1, x := 500, missiles := 40 - 1, maxMissiles := 40, active := true } ∧
    (fireInterceptor C6state 500 600).interceptors = C6state.interceptors ++
      [mkInterceptor 500 500 600 (-30), mkInterceptor 500 500 600 0,
       mkInterceptor 500 500 600 30] ∧
    sumMissiles (fireInterceptor C6state 500 600).batteries =
      sumMissiles C6state.batteries - 1 := by
  have hsel : selectBattery C6state.batteries 500 =
      some (0, ⟨1, 500, 40, 40, true⟩, |(500:ℝ) - 500|) := by
    show selectBattery [⟨1, 500, 40, 40, true⟩] 500 = _
    unfold selectBattery
    simp only [selectBatteryAux]
    rw [if_pos ⟨by trivial, by norm_num⟩]
  have h := C6_fire_request C6state 500 600 0 ⟨1, 500, 40, 40, true⟩ _ rfl hsel
  exact ⟨h.2.2.2.1, h.2.2.2.2.2.2.1 rfl, h.2.2.2.2.1⟩

/-- Direct-hit pass acts elementwise on the rockets. -/
theorem directHits_rockets (x y : ℝ) (rs : List Rocket) :
    (directHits x y rs).1 = rs.map (fun r =>
      if ptDist r.pos ⟨x, y⟩ < 30 then { r with destroyed := true } else r) := by
  induction rs with
  | nil => rfl
  | cons r rs ih =>
    by_cases h : ptDist r.pos ⟨x, y⟩ < 30
    · simp [directHits, h, ih]
    · simp [directHits, h, ih]

/-- Direct-hit pass pushes one explosion per hit rocket, at the rocket's
position. -/
theorem directHits_interceptors (x y : ℝ) (rs : List Rocket) :
    (directHits x y rs).2.1 =
      (rs.filter (fun r => decide (ptDist r.pos ⟨x, y⟩ < 30))).map
        (fun r => clickInterceptor r.pos) := by
  induction rs with
  | nil => rfl
  | cons r rs ih =>
    by_cases h : ptDist r.pos ⟨x, y⟩ < 30
    · simp [directHits, List.filter_cons, h, ih]
    · simp [directHits, List.filter_cons, h, ih]

/-- Direct-hit pass credits 20 points per hit rocket. -/
theorem directHits_score (x y : ℝ) (rs : List Rocket) :
    (directHits x y rs).2.2.1 =
      20 * ((rs.filter (fun r => decide (ptDist r.pos ⟨x, y⟩ < 30))).length : ℤ) := by
  induction rs with
  | nil => simp [directHits]
  | cons r rs ih =>
    by_cases h : ptDist r.pos ⟨x, y⟩ < 30
    · simp [directHits, List.filter_cons, h, ih]
      ring
    · simp [directHits, List.filter_cons, h, ih]

/-- Direct-hit flag is set exactly when some rocket is within 30 units of
the tap point. -/
theorem directHits_flag (x y : ℝ) (rs : List Rocket) :
    (directHits x y rs).2.2.2 = true ↔ ∃ r ∈ rs, ptDist r.pos ⟨x, y⟩ < 30 := by
  induction rs with
  | nil => simp [directHits]
  | cons r rs ih =>
    by_cases h : ptDist r.pos ⟨x, y⟩ < 30
    · simp [directHits, h]
    · simp [directHits, h, ih]

/-- Unfolding of the tap handler while playing. -/
theorem handleCanvasClick_eq (s : SimState) (x y : ℝ)
    (hgs : s.gameState = GState.PLAYING) :
    handleCanvasClick s x y =
      if (directHits x y s.rockets).2.2.2 = true then
        { s with rockets := (directHits x y s.rockets).1,
                 interceptors := s.interceptors ++ (directHits x y s.rockets).2.1,
                 score := s.score + (directHits x y s.rockets).2.2.1 }
      else fireInterceptor
        { s with rockets := (directHits x y s.rockets).1,
                 interceptors := s.interceptors ++ (directHits x y s.rockets).2.1,
                 score := s.score + (directHits x y s.rockets).2.2.1 } x y := by
  unfold handleCanvasClick
  rw [if_pos hgs]

/-- Claim C5 (amended): every rocket within 30 world units of the tap point
is destroyed and credited 20 points, and each spawns an instantaneous
EXPLODING interceptor (zero flight phase, initial radius 10, maximum
radius 60) at the destroyed rocket's own position — not at the tap point;
when at least one hit occurred no battery fire request is issued; when no
hit occurred the tap becomes a fire request which selects an active
battery with ammo at minimal |x-distance| to the tap, and with no such
battery the tap mutates nothing. -/
theorem C5_tap_resolution (s : SimState) (x y : ℝ)
    (hgs : s.gameState = GState.PLAYING)
    (hnd : ∀ r ∈ s.rockets, r.destroyed = false) :
    (handleCanvasClick s x y).rockets = s.rockets.map (fun r =>
      if ptDist r.pos ⟨x, y⟩ < 30 then { r with destroyed := true } else r) ∧
    (handleCanvasClick s x y).score = s.score +
      20 * ((s.rockets.filter (fun r => decide (ptDist r.pos ⟨x, y⟩ < 30))).length : ℤ) ∧
    ((∃ r ∈ s.rockets, ptDist r.pos ⟨x, y⟩ < 30) →
      (handleCanvasClick s x y).interceptors = s.interceptors ++
        (s.rockets.filter (fun r => decide (ptDist r.pos ⟨x, y⟩ < 30))).map
          (fun r => clickInterceptor r.pos) ∧
      (handleCanvasClick s x y).batteries = s.batteries) ∧
    (∀ p : Point, (clickInterceptor p).state = IState.EXPLODING ∧
      (clickInterceptor p).pos = p ∧ (clickInterceptor p).explosionRadius = 10 ∧
      (clickInterceptor p).maxExplosionRadius = 60) ∧
    ((∀ r ∈ s.rockets, ¬ ptDist r.pos ⟨x, y⟩ < 30) →
      handleCanvasClick s x y = fireInterceptor s x y) ∧
    (∀ (i : ℕ) (b : Battery) (d : ℝ), selectBattery s.batteries x = some (i, b, d) →
      b.active = true ∧ 0 < b.missiles ∧
      ∀ b2 ∈ s.batteries, b2.active = true → 0 < b2.missiles →
        |b.x - x| ≤ |b2.x - x|) ∧
    ((∀ b ∈ s.batteries, ¬ (b.active = true ∧ 0 < b.missiles)) →
      (∀ r ∈ s.rockets, ¬ ptDist r.pos ⟨x, y⟩ < 30) →
      handleCanvasClick s x y = s) := by
  have hmain := handleCanvasClick_eq s x y hgs
  have hminp : ∀ (i : ℕ) (b : Battery) (d : ℝ),
      selectBattery s.batteries x = some (i, b, d) →
      b.active = true ∧ 0 < b.missiles ∧
      ∀ b2 ∈ s.batteries, b2.active = true → 0 < b2.missiles →
        |b.x - x| ≤ |b2.x - x| := by
    intro i b d hsel
    obtain ⟨-, hact, hammo, hd⟩ :=
      selectBatteryAux_spec x s.batteries s.batteries 0 none rfl (by simp) i b d hsel
    obtain ⟨-, hmin⟩ := selectBatteryAux_min x s.batteries 0 none i b d hsel
    refine ⟨hact, hammo, ?_⟩
    intro b2 hb2 ha hm
    rw [← hd]
    exact hmin b2 hb2 ha hm
  have hs2nohit : (∀ r ∈ s.rockets, ¬ ptDist r.pos ⟨x, y⟩ < 30) →
      ({ s with rockets := (directHits x y s.rockets).1,
                interceptors := s.interceptors ++ (directHits x y s.rockets).2.1,
                score := s.score + (directHits x y s.rockets).2.2.1 } : SimState) = s := by
    intro hno
    have h1 : (directHits x y s.rockets).1 = s.rockets := by
      rw [directHits_rockets]
      exact map_self_of_mem _ _ (fun r hr => if_neg (hno r hr))
    have hfilter : s.rockets.filter (fun r => decide (ptDist r.pos ⟨x, y⟩ < 30)) = [] :=
      List.filter_eq_nil_iff.mpr (fun r hr => by simpa using hno r hr)
    have h2 : (directHits x y s.rockets).2.1 = [] := by
      rw [directHits_interceptors, hfilter]
      rfl
    have h3 : (directHits x y s.rockets).2.2.1 = 0 := by
      rw [directHits_score, hfilter]
      simp
    obtain ⟨sc, lv, rd, gs, rks, its, cs, bs⟩ := s
    simp only at h1 h2 h3 ⊢
    rw [h1, h2, h3]
    simp
  by_cases hflag : (directHits x y s.rockets).2.2.2 = true
  · rw [if_pos hflag] at hmain
    have hex := (directHits_flag x y s.rockets).mp hflag
    refine ⟨?_, ?_, fun _ => ⟨?_, ?_⟩, fun p => ⟨rfl, rfl, rfl, rfl⟩, ?_, hminp, ?_⟩
    · rw [hmain]
      exact directHits_rockets x y s.rockets
    · rw [hmain]
      show s.score + (directHits x y s.rockets).2.2.1 = _
      rw [directHits_score]
    · rw [hmain]
      show s.interceptors ++ (directHits x y s.rockets).2.1 = _
      rw [directHits_interceptors]
    · rw [hmain]
    · intro hno
      obtain ⟨r, hr, hq⟩ := hex
      exact absurd hq (hno r hr)
    · intro _ hno
      obtain ⟨r, hr, hq⟩ := hex
      exact absurd hq (hno r hr)
  · rw [if_neg hflag] at hmain
    have hnohit : ∀ r ∈ s.rockets, ¬ ptDist r.pos ⟨x, y⟩ < 30 := by
      intro r hr hq
      exact hflag ((directHits_flag x y s.rockets).mpr ⟨r, hr, hq⟩)
    have hs2 := hs2nohit hnohit
    rw [hs2] at hmain
    have hfilter : s.rockets.filter (fun r => decide (ptDist r.pos ⟨x, y⟩ < 30)) = [] :=
      List.filter_eq_nil_iff.mpr (fun r hr => by simpa using hnohit r hr)
    refine ⟨?_, ?_, ?_, fun p => ⟨rfl, rfl, rfl, rfl⟩, fun _ => hmain, hminp, ?_⟩
    · rw [hmain, fireInterceptor_rockets]
      exact (map_self_of_mem _ _ (fun r hr => if_neg (hnohit r hr))).symm
    · rw [hmain, fireInterceptor_score, hfilter]
      simp
    · intro hex2
      obtain ⟨r, hr, hq⟩ := hex2
      exact absurd hq (hnohit r hr)
    · intro hnob _
      rw [hmain]
      exact fireInterceptor_of_none s x y (selectBatteryAux_none x s.batteries hnob 0)

/-- Claim C5 counterexample: a tap at (0, 100) destroys the rocket at
(20, 100) (20 world units away), but the spawned EXPLODING interceptor
sits at the rocket's position (20, 100), not at the tap point (0, 100)
as the claim states. -/
theorem C5_counterexample :
    (handleCanvasClick C5state 0 100).interceptors = [clickInterceptor ⟨20, 100⟩] ∧
    (∀ i ∈ (handleCanvasClick C5state 0 100).interceptors, i.pos ≠ (⟨0, 100⟩ : Point)) ∧
    (∀ i ∈ (handleCanvasClick C5state 0 100).interceptors,
      i.explosionRadius = 10 ∧ i.maxExplosionRadius = 60 ∧
      i.explosionRadius ≠ i.maxExplosionRadius) := by
  have hpt : ptDist (⟨20, 100⟩ : Point) ⟨0, 100⟩ = 20 := by
    simp only [ptDist]
    have harg : ((20:ℝ) - 0) * (20 - 0) + ((100:ℝ) - 100) * (100 - 100) = 20 ^ 2 := by
      norm_num
    rw [harg, Real.sqrt_sq (by norm_num : (0:ℝ) ≤ 20)]
  have hdh : directHits 0 100 C5state.rockets =
      ([⟨0, ⟨20, 0⟩, ⟨20, 100⟩, ⟨20, 780⟩, 1, true⟩],
       [clickInterceptor ⟨20, 100⟩], 20, true) := by
    show directHits 0 100 [⟨0, ⟨20, 0⟩, ⟨20, 100⟩, ⟨20, 780⟩, 1, false⟩] = _
    simp only [directHits, hpt]
    rw [if_pos (by norm_num : (20:ℝ) < 30)]
    norm_num
  have hclick : handleCanvasClick C5state 0 100 =
      { C5state with rockets := [⟨0, ⟨20, 0⟩, ⟨20, 100⟩, ⟨20, 780⟩, 1, true⟩],
                     interceptors := [] ++ [clickInterceptor ⟨20, 100⟩],
                     score := 0 + 20 } := by
    rw [handleCanvasClick_eq C5state 0 100 rfl, hdh]
    rw [if_pos rfl]
    rfl
  refine ⟨?_, ?_, ?_⟩
  · rw [hclick]
    show [] ++ [clickInterceptor ⟨20, 100⟩] = _
    simp
  · intro i hi
    rw [hclick] at hi
    simp only [List.nil_append, List.mem_cons, List.not_mem_nil, or_false] at hi
    subst hi
    show (⟨20, 100⟩ : Point) ≠ (⟨0, 100⟩ : Point)
    simp only [ne_eq, Point.mk.injEq, not_and]
    intro h20
    norm_num at h20
  · intro i hi
    rw [hclick] at hi
    simp only [List.nil_append, List.mem_cons, List.not_mem_nil, or_false] at hi
    subst hi
    refine ⟨rfl, rfl, ?_⟩
    show (10:ℝ) ≠ 60
    norm_num

/-- Witness for C5 at the concrete state with one rocket 20 units from the
tap: direct hits suppress the battery fire request. -/
theorem C5_tap_resolution_witness :
    (handleCanvasClick C5state 0 100).interceptors = C5state.interceptors ++
      (C5state.rockets.filter (fun r => decide (ptDist r.pos ⟨0, 100⟩ < 30))).map
        (fun r => clickInterceptor r.pos) ∧
    (handleCanvasClick C5state 0 100).batteries = C5state.batteries := by
  have hpt : ptDist (⟨20, 100⟩ : Point) ⟨0, 100⟩ = 20 := by
    simp only [ptDist]
    have harg : ((20:ℝ) - 0) * (20 - 0) + ((100:ℝ) - 100) * (100 - 100) = 20 ^ 2 := by
      norm_num
    rw [harg, Real.sqrt_sq (by norm_num : (0:ℝ) ≤ 20)]
  refine (C5_tap_resolution C5state 0 100 rfl ?_).2.2.1 ?_
  · intro r hr
    simp only [C5state, List.mem_cons, List.not_mem_nil, or_false] at hr
    subst hr
    rfl
  · refine ⟨⟨0, ⟨20, 0⟩, ⟨20, 100⟩, ⟨20, 780⟩, 1, false⟩, ?_, ?_⟩
    · simp [C5state]
    · show ptDist (⟨20, 100⟩ : Point) ⟨0, 100⟩ < 30
      rw [hpt]
      norm_num
